import Mathlib

/-!
Verification of the bracket/quote/comment scanner in `src/brackets.rs`
(module `brackets` of jade-rs, a port of character-parser).

Modelling conventions:
* Rust `&str` values are modelled as `List Char` (the code itself works
  char-by-char via `chars()`; the byte/char distinction of the one raw
  slice `&src[0..pos-1]` is out of scope, all claimed inputs are ASCII).
* `history` and `src` are `String`s that the Rust code only pushes to,
  pops from and peeks at the END; we store them as lists with the most
  recent character FIRST, so push = cons, pop = tail, peek = head?.
* The regex `\b\w+$` (trailing word) is modelled over ASCII word
  characters `[A-Za-z0-9_]`, i.e. the maximal trailing run of word
  characters, which must be non-empty.
* Rust `char::is_whitespace` (used by `trim_right`) is the Unicode
  White_Space property, listed explicitly below.
-/

namespace Brackets

/-- Unicode White_Space property, as used by Rust `char::is_whitespace`
(and hence by `str::trim_right` in `is_regexp`), by code point:
TAB..CR, SPACE, NEL, NBSP, OGHAM SPACE MARK, U+2000..U+200A, LINE and
PARAGRAPH SEPARATOR, NARROW NBSP, MMSP, IDEOGRAPHIC SPACE. -/
def isRustWhitespace (c : Char) : Bool :=
  (0x09 ≤ c.toNat ∧ c.toNat ≤ 0x0d) ∨ c.toNat = 0x20 ∨ c.toNat = 0x85 ∨
  c.toNat = 0xa0 ∨ c.toNat = 0x1680 ∨
  (0x2000 ≤ c.toNat ∧ c.toNat ≤ 0x200a) ∨
  c.toNat = 0x2028 ∨ c.toNat = 0x2029 ∨ c.toNat = 0x202f ∨
  c.toNat = 0x205f ∨ c.toNat = 0x3000

/-- An ASCII word character, the `\w` class of the regex `\b\w+$`. -/
def isWordChar (c : Char) : Bool :=
  ('a' ≤ c ∧ c ≤ 'z') ∨ ('A' ≤ c ∧ c ≤ 'Z') ∨ ('0' ≤ c ∧ c ≤ '9') ∨ c = '_'

/-- `slice_chars(s, begin, end)`: the characters of `s` with index in
`[begin, end)` (char indices, as in the vendored Rust helper). -/
def slice_chars (s : List Char) (b e : Nat) : List Char :=
  (s.take e).drop b

/-- The scanner state `BracketState` of `src/brackets.rs`, field for field.
The private Rust field `last_char` is declared but never assigned anywhere
in the module, so it stays at its default `None` forever; it is kept here
because the block-comment branch of `parse_char_from_state` reads it. -/
structure BracketState where
  line_comment : Bool
  block_comment : Bool
  single_quote : Bool
  double_quote : Bool
  regexp : Bool
  escaped : Bool
  round_depth : Int
  curly_depth : Int
  square_depth : Int
  history : List Char
  last_char : Option Char
  src : List Char
  regexp_start : Bool
  deriving Repr, DecidableEq

/-- `BracketState::default()`: not inside any delimiter, all counters 0. -/
def BracketState.default : BracketState :=
  { line_comment := false
    block_comment := false
    single_quote := false
    double_quote := false
    regexp := false
    escaped := false
    round_depth := 0
    curly_depth := 0
    square_depth := 0
    history := []
    last_char := none
    src := []
    regexp_start := false }

instance : Inhabited BracketState := ⟨BracketState.default⟩

/-- `BracketState::in_string`. -/
def BracketState.in_string (s : BracketState) : Bool :=
  s.single_quote || s.double_quote

/-- `BracketState::in_comment`. -/
def BracketState.in_comment (s : BracketState) : Bool :=
  s.line_comment || s.block_comment

/-- `BracketState::in_nesting`. -/
def BracketState.in_nesting (s : BracketState) : Bool :=
  s.in_string || s.in_comment || s.regexp ||
  s.round_depth > 0 || s.curly_depth > 0 || s.square_depth > 0

/-- `is_punctuator`. -/
def is_punctuator (ch : Char) : Bool :=
  ch = '.' ∨ ch = '(' ∨ ch = ')' ∨ ch = ';' ∨ ch = ',' ∨ ch = '{' ∨
  ch = '}' ∨ ch = '[' ∨ ch = ']' ∨ ch = ':' ∨ ch = '?' ∨ ch = '~' ∨
  ch = '%' ∨ ch = '&' ∨ ch = '*' ∨ ch = '+' ∨ ch = '-' ∨ ch = '/' ∨
  ch = '<' ∨ ch = '>' ∨ ch = '^' ∨ ch = '|' ∨ ch = '!' ∨ ch = '='

/-- `is_keyword`, with the exact chain of comparisons of the source,
including the stray entry `"vosrc"` (line 341 of `brackets.rs`) and the
duplicated `"yield"` and `"let"` at the end. -/
def is_keyword (src : String) : Bool :=
  src == "if"
    || src == "in"
    || src == "do"
    || src == "var"
    || src == "for"
    || src == "new"
    || src == "try"
    || src == "let"
    || src == "this"
    || src == "else"
    || src == "case"
    || src == "vosrc"
    || src == "with"
    || src == "enum"
    || src == "while"
    || src == "break"
    || src == "catch"
    || src == "throw"
    || src == "const"
    || src == "yield"
    || src == "class"
    || src == "super"
    || src == "return"
    || src == "typeof"
    || src == "delete"
    || src == "switch"
    || src == "export"
    || src == "import"
    || src == "default"
    || src == "finally"
    || src == "extends"
    || src == "function"
    || src == "continue"
    || src == "debugger"
    || src == "package"
    || src == "private"
    || src == "interface"
    || src == "instanceof"
    || src == "implements"
    || src == "protected"
    || src == "public"
    || src == "static"
    || src == "yield"
    || src == "let"

/-- `peek`: last character of the history string = head of our
most-recent-first list. -/
def peek (src : List Char) : Option Char :=
  src.head?

/-- `is_regexp(src)`: the regex-vs-division heuristic on the history.
The Rust code trims trailing whitespace, matches on the last character,
and otherwise applies `\b\w+$` to extract the trailing word and tests
`is_keyword` on it.  On our most-recent-first list: drop leading
whitespace, look at the head, and take the leading run of word
characters (reversed back into reading order for `is_keyword`). -/
def is_regexp (src : List Char) : Bool :=
  let history := src.dropWhile isRustWhitespace
  match peek history with
  | some ')' => false
  | some '}' => true
  | some ch =>
      if is_punctuator ch then true
      else
        let w := history.takeWhile isWordChar
        !w.isEmpty && is_keyword (String.mk w.reverse)
  | none => false

/-- The `if state.regexp_start { ... }` block at the top of
`parse_char_from_state` (lines 238-243): cancel a just-opened regex on a
following `/` or `*`, and clear the lookahead flag regardless. -/
def clear_regexp_start (ch : Char) (s : BracketState) : BracketState :=
  if s.regexp_start then
    { s with regexp := if ch = '/' ∨ ch = '*' then false else s.regexp
             regexp_start := false }
  else s

/-- The mode/depth else-if chain of `parse_char_from_state`
(lines 244-302).  `last_char` is the history character peeked at entry;
the struct field `s.last_char` read by the block-comment branch is the
never-assigned field (always `none`). -/
def parse_char_mutate (ch : Char) (last_char : Option Char) (s : BracketState) :
    BracketState :=
  if s.line_comment then
    if ch = '\n' then { s with line_comment := false } else s
  else if s.block_comment then
    if s.last_char = some '*' ∧ ch = '/' then { s with block_comment := false } else s
  else if s.single_quote then
    if ch = '\'' ∧ !s.escaped then { s with single_quote := false }
    else if ch = '\\' ∧ !s.escaped then { s with escaped := true }
    else { s with escaped := false }
  else if s.double_quote then
    if ch = '"' ∧ !s.escaped then { s with double_quote := false }
    else if ch = '\\' ∧ !s.escaped then { s with escaped := true }
    else { s with escaped := false }
  else if s.regexp then
    if ch = '/' ∧ !s.escaped then { s with regexp := false }
    else if ch = '\\' ∧ !s.escaped then { s with escaped := true }
    else { s with escaped := false }
  else if last_char = some '/' ∧ ch = '/' then
    { s with history := s.history.tail, line_comment := true }
  else if last_char = some '/' ∧ ch = '*' then
    { s with history := s.history.tail, block_comment := true }
  else if ch = '/' ∧ is_regexp s.history then
    { s with regexp := true, regexp_start := true }
  else if ch = '\'' then { s with single_quote := true }
  else if ch = '"' then { s with double_quote := true }
  else if ch = '(' then { s with round_depth := s.round_depth + 1 }
  else if ch = ')' then { s with round_depth := s.round_depth - 1 }
  else if ch = '{' then { s with curly_depth := s.curly_depth + 1 }
  else if ch = '}' then { s with curly_depth := s.curly_depth - 1 }
  else if ch = '[' then { s with square_depth := s.square_depth + 1 }
  else if ch = ']' then { s with square_depth := s.square_depth - 1 }
  else s

/-- The history update at the bottom of `parse_char_from_state`
(lines 304-306): record `ch` unless inside, or just exiting, a comment. -/
def push_history (ch : Char) (was_comment : Bool) (s : BracketState) : BracketState :=
  if !s.block_comment ∧ !s.line_comment ∧ !was_comment then
    { s with history := ch :: s.history }
  else s

/-- `parse_char_from_state(ch, &mut state)`: the per-character transition,
with the Rust sequence of mutations written as sequential rebindings
through the three blocks above. -/
def parse_char_from_state (ch : Char) (state : BracketState) : BracketState :=
  let s := { state with src := ch :: state.src }
  let was_comment := s.in_comment
  let last_char := peek s.history
  let s := clear_regexp_start ch s
  let s := parse_char_mutate ch last_char s
  push_history ch was_comment s

/-- `parse_from_state(src, &mut state)`: fold the transition over the
text, checking the three depth counters BEFORE each character; returns
the success flag together with the (possibly partially advanced) state. -/
def parse_from_state (src : List Char) (state : BracketState) : Bool × BracketState :=
  match src with
  | [] => (true, state)
  | ch :: rest =>
      if state.round_depth < 0 ∨ state.curly_depth < 0 ∨ state.square_depth < 0 then
        (false, state)
      else
        parse_from_state rest (parse_char_from_state ch state)

/-- `parse(src)`: scan from a fresh state, `none` on reported error. -/
def parse (src : List Char) : Option BracketState :=
  let r := parse_from_state src BracketState.default
  if r.1 then some r.2 else none

/-- `parse_char(ch)`: single character from the default state. -/
def parse_char (ch : Char) : BracketState :=
  parse_char_from_state ch BracketState.default

/-- `BracketBlock`: a span of the enclosing text.  The Rust field `end`
is a Lean keyword, hence `end_`. -/
structure BracketBlock where
  start : Nat
  end_ : Nat
  src : List Char
  deriving Repr, DecidableEq

/-- The loop of `parse_max`: while all depths are non-negative, consume
the next character (returning `none` when the text runs out); on exit the
offending character is at position `pos - 1`. -/
def parse_max_go (full : List Char) (rest : List Char) (state : BracketState)
    (pos : Nat) : Option BracketBlock :=
  if state.round_depth ≥ 0 ∧ state.curly_depth ≥ 0 ∧ state.square_depth ≥ 0 then
    match rest with
    | [] => none
    | ch :: rest' => parse_max_go full rest' (parse_char_from_state ch state) (pos + 1)
  else
    some { start := 0, end_ := pos - 1, src := full.take (pos - 1) }

/-- `parse_max(src)`: parse until an unmatched closing bracket. -/
def parse_max (src : List Char) : Option BracketBlock :=
  parse_max_go src src BracketState.default 0

/-- `starts_with(src, start, i)`: the Rust helper; note the `>=` bound,
which rejects a match that would end exactly at the end of `src`. -/
def starts_with (src start : List Char) (i : Nat) : Bool :=
  if i + start.length ≥ src.length then false
  else slice_chars src i (i + start.length) == start

/-- The loop of `parse_until_with_options`, returning the index at which
the delimiter was found.  The Rust `src.chars().nth(idx).unwrap()` is in
range whenever it is executed (the `>=` guard just above returned
otherwise), modelled with `getD`.  `fuel` only makes the recursion
structural: the loop recurses only while `idx + delimiter.length <
src.length`, so each step decreases `src.length - idx`; the caller passes
`src.length ≥ src.length - idx` and the `fuel = 0` branch is never
reached. -/
def parse_until_go (src delimiter : List Char) (line_comments : Bool) :
    Nat → BracketState → Nat → Option Nat
  | fuel, state, idx =>
    if state.in_string ∨ state.regexp ∨ state.block_comment ∨
        (!line_comments ∧ state.line_comment) ∨ !starts_with src delimiter idx then
      if idx + delimiter.length ≥ src.length then none
      else
        match fuel with
        | 0 => none
        | fuel' + 1 =>
            parse_until_go src delimiter line_comments fuel'
              (parse_char_from_state (src.getD idx ' ') state) (idx + 1)
    else
      some idx

/-- `parse_until_with_options(src, delimiter, start, line_comments)`. -/
def parse_until_with_options (src delimiter : List Char) (start : Nat)
    (line_comments : Bool) : Option BracketBlock :=
  match parse_until_go src delimiter line_comments src.length BracketState.default start with
  | some idx => some { start := start, end_ := idx, src := slice_chars src start idx }
  | none => none

/-- `parse_until(src, delimiter)`. -/
def parse_until (src delimiter : List Char) : Option BracketBlock :=
  parse_until_with_options src delimiter 0 false

/-- All states reachable from the default state: fold of the transition
function over an arbitrary already-consumed text. -/
def scan_list (l : List Char) : BracketState :=
  l.foldl (fun s c => parse_char_from_state c s) BracketState.default

/-- The failure condition checked by the streaming driver and the region
extractors: some depth counter is negative. -/
def has_negative_depth (s : BracketState) : Bool :=
  s.round_depth < 0 || s.curly_depth < 0 || s.square_depth < 0

/-- The history-independent part of the scanner-state invariant:
* mutual exclusivity of the five mode flags (in triangular form),
* `escaped` only inside a string or regex literal,
* `regexp_start` never coexists with `escaped`. -/
def FlagInv (s : BracketState) : Prop :=
  (s.line_comment = true →
    s.block_comment = false ∧ s.single_quote = false ∧ s.double_quote = false ∧
    s.regexp = false) ∧
  (s.block_comment = true →
    s.single_quote = false ∧ s.double_quote = false ∧ s.regexp = false) ∧
  (s.single_quote = true → s.double_quote = false ∧ s.regexp = false) ∧
  (s.double_quote = true → s.regexp = false) ∧
  (s.escaped = true →
    s.single_quote = true ∨ s.double_quote = true ∨ s.regexp = true) ∧
  (s.regexp_start = true → s.escaped = false)

/-- The full inductive invariant: the flag part, plus the fact that when
`regexp_start` is set the most recent history character is the opening
`/`. -/
def StateInv (s : BracketState) : Prop :=
  FlagInv s ∧ (s.regexp_start = true → s.history.head? = some '/')

lemma stateInv_default : StateInv BracketState.default := by
  simp [StateInv, FlagInv, BracketState.default]

lemma clear_regexp_start_spec (ch : Char) (s : BracketState) (h : FlagInv s) :
    FlagInv (clear_regexp_start ch s) ∧
      (clear_regexp_start ch s).regexp_start = false ∧
      (clear_regexp_start ch s).line_comment = s.line_comment ∧
      (clear_regexp_start ch s).block_comment = s.block_comment := by
  obtain ⟨h1, h2, h3, h4, h5, h6⟩ := h
  unfold clear_regexp_start
  split_ifs <;> simp_all [FlagInv]

set_option maxHeartbeats 2000000 in
lemma parse_char_mutate_spec (ch : Char) (lc : Option Char) (s : BracketState)
    (h : FlagInv s) (hrs : s.regexp_start = false) :
    FlagInv (parse_char_mutate ch lc s) ∧
      ((parse_char_mutate ch lc s).regexp_start = true →
        ch = '/' ∧ (parse_char_mutate ch lc s).line_comment = false ∧
        (parse_char_mutate ch lc s).block_comment = false ∧
        s.line_comment = false ∧ s.block_comment = false) := by
  obtain ⟨lc, bc, sq, dq, rx, esc, rd, cd, sd, hist, lastc, srcf, rs⟩ := s
  obtain ⟨h1, h2, h3, h4, h5, h6⟩ := h
  dsimp only at hrs h1 h2 h3 h4 h5 h6
  subst hrs
  cases lc <;> cases bc <;> cases sq <;> cases dq <;> cases rx <;> cases esc <;>
    simp only [parse_char_mutate] <;> (try simp)
  all_goals (try (split_ifs <;> simp_all [FlagInv]))
  all_goals simp_all [FlagInv]

lemma push_history_stateInv (ch : Char) (was : Bool) (s : BracketState)
    (h : FlagInv s)
    (hrs : s.regexp_start = true →
      ch = '/' ∧ s.line_comment = false ∧ s.block_comment = false ∧ was = false) :
    StateInv (push_history ch was s) := by
  unfold push_history StateInv
  split_ifs with hcond
  · refine ⟨h, fun hrs' => ?_⟩
    obtain ⟨hch, -, -, -⟩ := hrs hrs'
    subst hch
    rfl
  · refine ⟨h, fun hrs' => ?_⟩
    obtain ⟨-, hl, hb, hw⟩ := hrs hrs'
    exact absurd (by simp [hl, hb, hw]) hcond

lemma stateInv_step (s : BracketState) (ch : Char) (h : StateInv s) :
    StateInv (parse_char_from_state ch s) := by
  obtain ⟨hf, -⟩ := h
  have hf1 : FlagInv { s with src := ch :: s.src } := hf
  obtain ⟨hc, hcrs, hcl, hcb⟩ :=
    clear_regexp_start_spec ch { s with src := ch :: s.src } hf1
  obtain ⟨hm, hmrs⟩ :=
    parse_char_mutate_spec ch (peek s.history) (clear_regexp_start ch { s with src := ch :: s.src }) hc hcrs
  show StateInv (push_history ch ({ s with src := ch :: s.src } : BracketState).in_comment _)
  apply push_history_stateInv _ _ _ hm
  intro hrs
  obtain ⟨hch, hl, hb, hl0, hb0⟩ := hmrs hrs
  refine ⟨hch, hl, hb, ?_⟩
  have : ({ s with src := ch :: s.src } : BracketState).in_comment
      = (s.line_comment || s.block_comment) := rfl
  rw [this, hcl.symm.trans hl0, hcb.symm.trans hb0]
  rfl

lemma stateInv_foldl (l : List Char) (s : BracketState) (h : StateInv s) :
    StateInv (l.foldl (fun s c => parse_char_from_state c s) s) := by
  induction l generalizing s with
  | nil => exact h
  | cons c rest ih => exact ih _ (stateInv_step s c h)

lemma stateInv_scan_list (l : List Char) : StateInv (scan_list l) :=
  stateInv_foldl l BracketState.default stateInv_default

/-- C1: streaming law.  For every pair of texts `a`, `b` and every starting
state, running `parse_from_state` on `a` and then on `b` against the
retained state yields the same final state, and the same overall
success/failure verdict (both calls succeeded), as running it once on the
concatenation `a ++ b`. -/
theorem parse_from_state_append (a b : List Char) (s : BracketState) :
    parse_from_state (a ++ b) s =
      ((parse_from_state a s).1 && (parse_from_state b (parse_from_state a s).2).1,
        (parse_from_state b (parse_from_state a s).2).2) := by
  induction a generalizing s with
  | nil => simp [parse_from_state]
  | cons ch rest ih =>
      rw [List.cons_append]
      have hstep : ∀ (c : Char) (t : List Char), parse_from_state (c :: t) s =
          if s.round_depth < 0 ∨ s.curly_depth < 0 ∨ s.square_depth < 0 then (false, s)
          else parse_from_state t (parse_char_from_state c s) := fun c t => rfl
      by_cases hneg : s.round_depth < 0 ∨ s.curly_depth < 0 ∨ s.square_depth < 0
      · rw [hstep ch (rest ++ b), hstep ch rest, if_pos hneg, if_pos hneg]
        cases b with
        | nil => rfl
        | cons c bs =>
            dsimp only
            rw [hstep c bs, if_pos hneg]
            rfl
      · rw [hstep ch (rest ++ b), hstep ch rest, if_neg hneg, if_neg hneg]
        exact ih (parse_char_from_state ch s)

/-- C2: mode mutual exclusivity.  In every state reachable from the
default state by `parse_char_from_state` steps, at most one of the five
flags `line_comment`, `block_comment`, `single_quote`, `double_quote`,
`regexp` is true. -/
theorem reachable_mode_flags_mutually_exclusive (l : List Char) :
    (cond (scan_list l).line_comment 1 0) + (cond (scan_list l).block_comment 1 0) +
      (cond (scan_list l).single_quote 1 0) + (cond (scan_list l).double_quote 1 0) +
      (cond (scan_list l).regexp 1 0) ≤ 1 := by
  have h := stateInv_scan_list l
  revert h
  generalize scan_list l = s
  rintro ⟨⟨h1, h2, h3, h4, h5, h6⟩, -⟩
  cases hl : s.line_comment <;> cases hb : s.block_comment <;> cases hsq : s.single_quote <;>
    cases hd : s.double_quote <;> cases hr : s.regexp <;> simp_all

/-- C10: in every reachable state, `escaped = true` implies the scanner is
inside a single-quoted string, a double-quoted string, or a regex
literal; equivalently `escaped` is always false in Normal mode or inside
a comment. -/
theorem escaped_implies_in_literal (l : List Char)
    (h : (scan_list l).escaped = true) :
    (scan_list l).single_quote = true ∨ (scan_list l).double_quote = true ∨
      (scan_list l).regexp = true :=
  (stateInv_scan_list l).1.2.2.2.2.1 h

/-- Witness for C10 at the concrete reachable state after scanning `'\`:
the state is escaped, inside a single-quoted string. -/
theorem escaped_implies_in_literal_witness :
    (scan_list ("'\\".toList)).escaped = true ∧
      ((scan_list ("'\\".toList)).single_quote = true ∨
        (scan_list ("'\\".toList)).double_quote = true ∨
        (scan_list ("'\\".toList)).regexp = true) :=
  ⟨by decide, escaped_implies_in_literal ("'\\".toList) (by decide)⟩

/-- C7 counterexample: with empty lookback history, `is_regexp` returns
false (not true as claimed), so a leading `/` from the fresh default state
does not enter RegexLiteral mode. -/
theorem is_regexp_empty_history_eq_false :
    is_regexp [] = false ∧ (parse_char '/').regexp = false := by decide

/-- C7 amended: with empty lookback history the heuristic classifies a
`/` as division (returns false); a leading `/` from a fresh state leaves
every mode flag false and is merely recorded in the history. -/
theorem leading_slash_division_not_regexp :
    is_regexp [] = false ∧
      parse_char '/' = { BracketState.default with history := ['/'], src := ['/'] } := by
  decide

/-- C8: `is_keyword` accepts the non-keyword string `"vosrc"` (a corrupted
`"void"`, line 341 of the source), which is not among the 40 reserved
words listed by the specification. -/
theorem is_keyword_vosrc_true :
    is_keyword "vosrc" = true ∧
      "vosrc" ∉ (["if", "in", "do", "var", "for", "new", "try", "let", "this", "else",
        "case", "with", "enum", "while", "break", "catch", "throw", "const", "yield",
        "class", "super", "return", "typeof", "delete", "switch", "export", "import",
        "default", "finally", "extends", "function", "continue", "debugger", "package",
        "private", "interface", "instanceof", "implements", "protected", "public",
        "static"] : List String) := by decide

/-- C3: evaluating the driver at the claimed failing input.  Scanning the
one-character text `)` from a fresh state is REPORTED AS SUCCESS by
`parse` (the depth check runs before each character, so the negative
depth produced by the final character goes undetected) and yields
`round_depth = -1`; scanning `()` succeeds with all depths 0. -/
theorem parse_unmatched_final_close_succeeds :
    (parse (")".toList)).isSome = true ∧
      (parse (")".toList)).map (fun s => s.round_depth) = some (-1) ∧
      (parse ("()".toList)).map
        (fun s => (s.round_depth, s.curly_depth, s.square_depth)) = some (0, 0, 0) := by
  decide

/-- C6: evaluating `parse_until_with_options` at a haystack whose only
unprotected needle occurrence ends exactly at the end of the haystack:
the occurrence exists (`drop 3 "foo%>" = "%>"`) but the `>=` bound in
`starts_with` rejects it and the search reports not-found. -/
theorem parse_until_needle_at_end_not_found :
    parse_until_with_options ("foo%>".toList) ("%>".toList) 0 false = none ∧
      List.drop 3 ("foo%>".toList) = "%>".toList := by decide

/-- C5 counterexample: on `foo="(", bar="}") bing bong` the block returned
by `parse_max` has length 16, not 17 as claimed. -/
theorem parse_max_demo_not_length_17 :
    (parse_max ("foo=\"(\", bar=\"\x7d\") bing bong".toList)).map (fun b => b.src.length) =
        some 16 ∧
      (parse_max ("foo=\"(\", bar=\"\x7d\") bing bong".toList)).map (fun b => b.src.length) ≠
        some 17 := by decide

lemma push_history_depths (ch : Char) (was : Bool) (s : BracketState) :
    (push_history ch was s).round_depth = s.round_depth ∧
      (push_history ch was s).curly_depth = s.curly_depth ∧
      (push_history ch was s).square_depth = s.square_depth := by
  unfold push_history
  split_ifs <;> exact ⟨rfl, rfl, rfl⟩

lemma clear_regexp_start_depths (ch : Char) (s : BracketState) :
    (clear_regexp_start ch s).round_depth = s.round_depth ∧
      (clear_regexp_start ch s).curly_depth = s.curly_depth ∧
      (clear_regexp_start ch s).square_depth = s.square_depth := by
  unfold clear_regexp_start
  split_ifs <;> exact ⟨rfl, rfl, rfl⟩

lemma clear_regexp_start_flags (ch : Char) (s : BracketState) :
    (clear_regexp_start ch s).line_comment = s.line_comment ∧
      (clear_regexp_start ch s).block_comment = s.block_comment ∧
      (clear_regexp_start ch s).single_quote = s.single_quote ∧
      (clear_regexp_start ch s).double_quote = s.double_quote := by
  unfold clear_regexp_start
  split_ifs <;> exact ⟨rfl, rfl, rfl, rfl⟩

lemma clear_regexp_start_cleared (ch : Char) (s : BracketState) (h : s.regexp = true)
    (h2 : ¬ (clear_regexp_start ch s).regexp = true) : ch = '/' ∨ ch = '*' := by
  unfold clear_regexp_start at h2
  split_ifs at h2 <;> simp_all

lemma parse_char_mutate_depths (ch : Char) (lc : Option Char) (s : BracketState)
    (h : s.line_comment = true ∨ s.block_comment = true ∨ s.single_quote = true ∨
      s.double_quote = true ∨ s.regexp = true ∨
      (ch ≠ '(' ∧ ch ≠ ')' ∧ ch ≠ '{' ∧ ch ≠ '}' ∧ ch ≠ '[' ∧ ch ≠ ']')) :
    (parse_char_mutate ch lc s).round_depth = s.round_depth ∧
      (parse_char_mutate ch lc s).curly_depth = s.curly_depth ∧
      (parse_char_mutate ch lc s).square_depth = s.square_depth := by
  unfold parse_char_mutate
  by_cases h1 : s.line_comment = true
  · rw [if_pos h1]; split_ifs <;> exact ⟨rfl, rfl, rfl⟩
  rw [if_neg h1]
  by_cases h2 : s.block_comment = true
  · rw [if_pos h2]; split_ifs <;> exact ⟨rfl, rfl, rfl⟩
  rw [if_neg h2]
  by_cases h3 : s.single_quote = true
  · rw [if_pos h3]; split_ifs <;> exact ⟨rfl, rfl, rfl⟩
  rw [if_neg h3]
  by_cases h4 : s.double_quote = true
  · rw [if_pos h4]; split_ifs <;> exact ⟨rfl, rfl, rfl⟩
  rw [if_neg h4]
  by_cases h5 : s.regexp = true
  · rw [if_pos h5]; split_ifs <;> exact ⟨rfl, rfl, rfl⟩
  rw [if_neg h5]
  have hch : ch ≠ '(' ∧ ch ≠ ')' ∧ ch ≠ '{' ∧ ch ≠ '}' ∧ ch ≠ '[' ∧ ch ≠ ']' := by
    rcases h with h | h | h | h | h | h
    · exact absurd h h1
    · exact absurd h h2
    · exact absurd h h3
    · exact absurd h h4
    · exact absurd h h5
    · exact h
  obtain ⟨n1, n2, n3, n4, n5, n6⟩ := hch
  by_cases h6 : lc = some '/' ∧ ch = '/'
  · rw [if_pos h6]; exact ⟨rfl, rfl, rfl⟩
  rw [if_neg h6]
  by_cases h7 : lc = some '/' ∧ ch = '*'
  · rw [if_pos h7]; exact ⟨rfl, rfl, rfl⟩
  rw [if_neg h7]
  by_cases h8 : ch = '/' ∧ is_regexp s.history = true
  · rw [if_pos h8]; exact ⟨rfl, rfl, rfl⟩
  rw [if_neg h8]
  by_cases h9 : ch = '\''
  · rw [if_pos h9]; exact ⟨rfl, rfl, rfl⟩
  rw [if_neg h9]
  by_cases h10 : ch = '"'
  · rw [if_pos h10]; exact ⟨rfl, rfl, rfl⟩
  rw [if_neg h10, if_neg n1, if_neg n2, if_neg n3, if_neg n4, if_neg n5, if_neg n6]
  exact ⟨rfl, rfl, rfl⟩

/-- C4: frame property of protected contexts.  For every state in a
string, comment, or regex mode and every character, the transition leaves
all three depth counters unchanged. -/
theorem protected_mode_depths_unchanged (s : BracketState) (ch : Char)
    (h : s.line_comment = true ∨ s.block_comment = true ∨ s.single_quote = true ∨
      s.double_quote = true ∨ s.regexp = true) :
    (parse_char_from_state ch s).round_depth = s.round_depth ∧
      (parse_char_from_state ch s).curly_depth = s.curly_depth ∧
      (parse_char_from_state ch s).square_depth = s.square_depth := by
  obtain ⟨f1, f2, f3, f4⟩ := clear_regexp_start_flags ch { s with src := ch :: s.src }
  have hmut : (clear_regexp_start ch { s with src := ch :: s.src }).line_comment = true ∨
      (clear_regexp_start ch { s with src := ch :: s.src }).block_comment = true ∨
      (clear_regexp_start ch { s with src := ch :: s.src }).single_quote = true ∨
      (clear_regexp_start ch { s with src := ch :: s.src }).double_quote = true ∨
      (clear_regexp_start ch { s with src := ch :: s.src }).regexp = true ∨
      (ch ≠ '(' ∧ ch ≠ ')' ∧ ch ≠ '{' ∧ ch ≠ '}' ∧ ch ≠ '[' ∧ ch ≠ ']') := by
    rcases h with hl | hb | hsq | hd | hr
    · exact Or.inl (by rw [f1]; exact hl)
    · exact Or.inr (Or.inl (by rw [f2]; exact hb))
    · exact Or.inr (Or.inr (Or.inl (by rw [f3]; exact hsq)))
    · exact Or.inr (Or.inr (Or.inr (Or.inl (by rw [f4]; exact hd))))
    · by_cases hrx : (clear_regexp_start ch { s with src := ch :: s.src }).regexp = true
      · exact Or.inr (Or.inr (Or.inr (Or.inr (Or.inl hrx))))
      · rcases clear_regexp_start_cleared ch { s with src := ch :: s.src } hr hrx with hch | hch <;>
          subst hch <;>
          exact Or.inr (Or.inr (Or.inr (Or.inr (Or.inr (by decide)))))
  obtain ⟨m1, m2, m3⟩ := parse_char_mutate_depths ch
    (peek ({ s with src := ch :: s.src } : BracketState).history)
    (clear_regexp_start ch { s with src := ch :: s.src }) hmut
  obtain ⟨c1, c2, c3⟩ := clear_regexp_start_depths ch { s with src := ch :: s.src }
  obtain ⟨p1, p2, p3⟩ := push_history_depths ch
    (({ s with src := ch :: s.src } : BracketState).in_comment)
    (parse_char_mutate ch (peek ({ s with src := ch :: s.src } : BracketState).history)
      (clear_regexp_start ch { s with src := ch :: s.src }))
  exact ⟨p1.trans (m1.trans c1), p2.trans (m2.trans c2), p3.trans (m3.trans c3)⟩

/-- Witness for C4 at a concrete protected state (inside a line comment)
and the closing-parenthesis character. -/
theorem protected_mode_depths_unchanged_witness :
    (({ BracketState.default with line_comment := true } : BracketState).line_comment = true ∨
      ({ BracketState.default with line_comment := true } : BracketState).block_comment = true ∨
      ({ BracketState.default with line_comment := true } : BracketState).single_quote = true ∨
      ({ BracketState.default with line_comment := true } : BracketState).double_quote = true ∨
      ({ BracketState.default with line_comment := true } : BracketState).regexp = true) ∧
      ((parse_char_from_state ')' { BracketState.default with line_comment := true }).round_depth =
          ({ BracketState.default with line_comment := true } : BracketState).round_depth ∧
        (parse_char_from_state ')' { BracketState.default with line_comment := true }).curly_depth =
          ({ BracketState.default with line_comment := true } : BracketState).curly_depth ∧
        (parse_char_from_state ')' { BracketState.default with line_comment := true }).square_depth =
          ({ BracketState.default with line_comment := true } : BracketState).square_depth) :=
  ⟨Or.inl rfl,
    protected_mode_depths_unchanged { BracketState.default with line_comment := true } ')'
      (Or.inl rfl)⟩

lemma push_history_rx_rs (ch : Char) (was : Bool) (s : BracketState) :
    (push_history ch was s).regexp = s.regexp ∧
      (push_history ch was s).regexp_start = s.regexp_start := by
  unfold push_history
  split_ifs <;> exact ⟨rfl, rfl⟩

lemma clear_regexp_start_of_start (ch : Char) (s : BracketState)
    (hrs : s.regexp_start = true) :
    clear_regexp_start ch s =
      { s with regexp := if ch = '/' ∨ ch = '*' then false else s.regexp
               regexp_start := false } := by
  unfold clear_regexp_start
  rw [if_pos hrs]

lemma parse_char_mutate_rs (ch : Char) (lc : Option Char) (s : BracketState)
    (hlast : lc = some '/') :
    (parse_char_mutate ch lc s).regexp_start = s.regexp_start := by
  subst hlast
  unfold parse_char_mutate
  by_cases h1 : s.line_comment = true
  · rw [if_pos h1]; split_ifs <;> rfl
  rw [if_neg h1]
  by_cases h2 : s.block_comment = true
  · rw [if_pos h2]; split_ifs <;> rfl
  rw [if_neg h2]
  by_cases h3 : s.single_quote = true
  · rw [if_pos h3]; split_ifs <;> rfl
  rw [if_neg h3]
  by_cases h4 : s.double_quote = true
  · rw [if_pos h4]; split_ifs <;> rfl
  rw [if_neg h4]
  by_cases h5 : s.regexp = true
  · rw [if_pos h5]; split_ifs <;> rfl
  rw [if_neg h5]
  by_cases h6 : (some '/' : Option Char) = some '/' ∧ ch = '/'
  · rw [if_pos h6]; try rfl
  rw [if_neg h6]
  by_cases h7 : (some '/' : Option Char) = some '/' ∧ ch = '*'
  · rw [if_pos h7]; try rfl
  rw [if_neg h7]
  by_cases h8 : ch = '/' ∧ is_regexp s.history = true
  · exact absurd ⟨rfl, h8.1⟩ h6
  rw [if_neg h8]
  by_cases h9 : ch = '\''
  · rw [if_pos h9]; try rfl
  rw [if_neg h9]
  by_cases h10 : ch = '"'
  · rw [if_pos h10]; try rfl
  rw [if_neg h10]
  by_cases h11 : ch = '('
  · rw [if_pos h11]; try rfl
  rw [if_neg h11]
  by_cases h12 : ch = ')'
  · rw [if_pos h12]; try rfl
  rw [if_neg h12]
  by_cases h13 : ch = '{'
  · rw [if_pos h13]; try rfl
  rw [if_neg h13]
  by_cases h14 : ch = '}'
  · rw [if_pos h14]; try rfl
  rw [if_neg h14]
  by_cases h15 : ch = '['
  · rw [if_pos h15]; try rfl
  rw [if_neg h15]
  by_cases h16 : ch = ']'
  · rw [if_pos h16]; try rfl
  rw [if_neg h16]

lemma parse_char_mutate_rx_false (ch : Char) (lc : Option Char) (s : BracketState)
    (hlast : lc = some '/') (hrx : s.regexp = false) :
    (parse_char_mutate ch lc s).regexp = false := by
  subst hlast
  unfold parse_char_mutate
  by_cases h1 : s.line_comment = true
  · rw [if_pos h1]; split_ifs <;> exact hrx
  rw [if_neg h1]
  by_cases h2 : s.block_comment = true
  · rw [if_pos h2]; split_ifs <;> exact hrx
  rw [if_neg h2]
  by_cases h3 : s.single_quote = true
  · rw [if_pos h3]; split_ifs <;> exact hrx
  rw [if_neg h3]
  by_cases h4 : s.double_quote = true
  · rw [if_pos h4]; split_ifs <;> exact hrx
  rw [if_neg h4]
  have h5 : ¬ s.regexp = true := by rw [hrx]; exact Bool.false_ne_true
  rw [if_neg h5]
  by_cases h6 : (some '/' : Option Char) = some '/' ∧ ch = '/'
  · rw [if_pos h6]; exact hrx
  rw [if_neg h6]
  by_cases h7 : (some '/' : Option Char) = some '/' ∧ ch = '*'
  · rw [if_pos h7]; exact hrx
  rw [if_neg h7]
  by_cases h8 : ch = '/' ∧ is_regexp s.history = true
  · exact absurd ⟨rfl, h8.1⟩ h6
  rw [if_neg h8]
  by_cases h9 : ch = '\''
  · rw [if_pos h9]; exact hrx
  rw [if_neg h9]
  by_cases h10 : ch = '"'
  · rw [if_pos h10]; exact hrx
  rw [if_neg h10]
  by_cases h11 : ch = '('
  · rw [if_pos h11]; exact hrx
  rw [if_neg h11]
  by_cases h12 : ch = ')'
  · rw [if_pos h12]; exact hrx
  rw [if_neg h12]
  by_cases h13 : ch = '{'
  · rw [if_pos h13]; exact hrx
  rw [if_neg h13]
  by_cases h14 : ch = '}'
  · rw [if_pos h14]; exact hrx
  rw [if_neg h14]
  by_cases h15 : ch = '['
  · rw [if_pos h15]; exact hrx
  rw [if_neg h15]
  by_cases h16 : ch = ']'
  · rw [if_pos h16]; exact hrx
  rw [if_neg h16]
  exact hrx

lemma regexp_start_cancelled_aux (s : BracketState) (hrs : s.regexp_start = true)
    (hhead : s.history.head? = some '/') :
    (parse_char_from_state '/' s).regexp = false ∧
      (parse_char_from_state '*' s).regexp = false ∧
      ∀ ch : Char, (parse_char_from_state ch s).regexp_start = false := by
  refine ⟨?_, ?_, fun ch => ?_⟩
  · have hc := clear_regexp_start_of_start '/' { s with src := '/' :: s.src } hrs
    have hrx2 : (clear_regexp_start '/' { s with src := '/' :: s.src }).regexp = false := by
      rw [hc]; simp
    have hm := parse_char_mutate_rx_false '/'
      (peek ({ s with src := '/' :: s.src } : BracketState).history)
      (clear_regexp_start '/' { s with src := '/' :: s.src }) hhead hrx2
    exact (push_history_rx_rs '/' (({ s with src := '/' :: s.src } : BracketState).in_comment)
      (parse_char_mutate '/' (peek ({ s with src := '/' :: s.src } : BracketState).history)
        (clear_regexp_start '/' { s with src := '/' :: s.src }))).1.trans hm
  · have hc := clear_regexp_start_of_start '*' { s with src := '*' :: s.src } hrs
    have hrx2 : (clear_regexp_start '*' { s with src := '*' :: s.src }).regexp = false := by
      rw [hc]; simp
    have hm := parse_char_mutate_rx_false '*'
      (peek ({ s with src := '*' :: s.src } : BracketState).history)
      (clear_regexp_start '*' { s with src := '*' :: s.src }) hhead hrx2
    exact (push_history_rx_rs '*' (({ s with src := '*' :: s.src } : BracketState).in_comment)
      (parse_char_mutate '*' (peek ({ s with src := '*' :: s.src } : BracketState).history)
        (clear_regexp_start '*' { s with src := '*' :: s.src }))).1.trans hm
  · have hc := clear_regexp_start_of_start ch { s with src := ch :: s.src } hrs
    have hrs2 : (clear_regexp_start ch { s with src := ch :: s.src }).regexp_start = false := by
      rw [hc]
    have hm := parse_char_mutate_rs ch
      (peek ({ s with src := ch :: s.src } : BracketState).history)
      (clear_regexp_start ch { s with src := ch :: s.src }) hhead
    exact ((push_history_rx_rs ch (({ s with src := ch :: s.src } : BracketState).in_comment)
      (parse_char_mutate ch (peek ({ s with src := ch :: s.src } : BracketState).history)
        (clear_regexp_start ch { s with src := ch :: s.src }))).2.trans hm).trans hrs2

/-- C9: degenerate-regex cancellation.  In every reachable state with
`regexp_start` set, feeding `/` or `*` cancels the regex interpretation
(`regexp` becomes false), and feeding any character clears
`regexp_start`; concretely, scanning `=/*` from a fresh state ends in
BlockComment mode and scanning `=//` ends in LineComment mode, not in
RegexLiteral mode. -/
theorem regexp_start_cancellation :
    (∀ l : List Char, (scan_list l).regexp_start = true →
        (parse_char_from_state '/' (scan_list l)).regexp = false ∧
        (parse_char_from_state '*' (scan_list l)).regexp = false ∧
        ∀ ch : Char, (parse_char_from_state ch (scan_list l)).regexp_start = false) ∧
      (scan_list ("=/*".toList)).block_comment = true ∧
      (scan_list ("=/*".toList)).regexp = false ∧
      (scan_list ("=//".toList)).line_comment = true ∧
      (scan_list ("=//".toList)).regexp = false := by
  refine ⟨fun l hrs =>
    regexp_start_cancelled_aux (scan_list l) hrs ((stateInv_scan_list l).2 hrs),
    ?_, ?_, ?_, ?_⟩ <;> decide

/-- Witness for C9 at the concrete reachable state after scanning `=/`,
which has `regexp_start` set; feeding `*` cancels the regex. -/
theorem regexp_start_cancellation_witness :
    (scan_list ("=/".toList)).regexp_start = true ∧
      (parse_char_from_state '*' (scan_list ("=/".toList))).regexp = false :=
  ⟨by decide, (regexp_start_cancellation.1 ("=/".toList) (by decide)).2.1⟩

lemma parse_max_go_cons (full : List Char) (ch : Char) (rest : List Char)
    (state : BracketState) (pos : Nat)
    (h : state.round_depth ≥ 0 ∧ state.curly_depth ≥ 0 ∧ state.square_depth ≥ 0) :
    parse_max_go full (ch :: rest) state pos =
      parse_max_go full rest (parse_char_from_state ch state) (pos + 1) := by
  show (if state.round_depth ≥ 0 ∧ state.curly_depth ≥ 0 ∧ state.square_depth ≥ 0 then
      parse_max_go full rest (parse_char_from_state ch state) (pos + 1)
    else some ({ start := 0, end_ := pos - 1, src := full.take (pos - 1) } : BracketBlock)) =
      parse_max_go full rest (parse_char_from_state ch state) (pos + 1)
  rw [if_pos h]

lemma parse_max_go_stop (full rest : List Char) (state : BracketState) (pos : Nat)
    (h : ¬ (state.round_depth ≥ 0 ∧ state.curly_depth ≥ 0 ∧ state.square_depth ≥ 0)) :
    parse_max_go full rest state pos =
      some { start := 0, end_ := pos - 1, src := full.take (pos - 1) } := by
  cases rest with
  | nil =>
      show (if state.round_depth ≥ 0 ∧ state.curly_depth ≥ 0 ∧ state.square_depth ≥ 0 then
          none
        else some ({ start := 0, end_ := pos - 1, src := full.take (pos - 1) } : BracketBlock)) =
          some { start := 0, end_ := pos - 1, src := full.take (pos - 1) }
      rw [if_neg h]
  | cons c r =>
      show (if state.round_depth ≥ 0 ∧ state.curly_depth ≥ 0 ∧ state.square_depth ≥ 0 then
          parse_max_go full r (parse_char_from_state c state) (pos + 1)
        else some ({ start := 0, end_ := pos - 1, src := full.take (pos - 1) } : BracketBlock)) =
          some { start := 0, end_ := pos - 1, src := full.take (pos - 1) }
      rw [if_neg h]

lemma scan_list_take_succ (src : List Char) (pos : Nat) (h : pos < src.length) :
    scan_list (src.take (pos + 1)) =
      parse_char_from_state src[pos] (scan_list (src.take pos)) := by
  unfold scan_list
  rw [List.take_succ, List.getElem?_eq_getElem h, List.foldl_append]
  rfl

lemma parse_max_go_spec (src : List Char) (m : Nat)
    (hmlen : m ≤ src.length)
    (hneg : has_negative_depth (scan_list (src.take m)) = true)
    (hmin : ∀ i, i < m → has_negative_depth (scan_list (src.take i)) = false) :
    ∀ k pos, pos + k = m →
      parse_max_go src (src.drop pos) (scan_list (src.take pos)) pos =
        some { start := 0, end_ := m - 1, src := src.take (m - 1) } := by
  intro k
  induction k with
  | zero =>
      intro pos hpos
      have hpm : pos = m := by omega
      subst hpm
      apply parse_max_go_stop
      simp only [has_negative_depth, Bool.or_eq_true, decide_eq_true_eq] at hneg
      omega
  | succ k ih =>
      intro pos hpos
      have hposm : pos < m := by omega
      have hlt : pos < src.length := by omega
      have hnn := hmin pos hposm
      simp only [has_negative_depth, Bool.or_eq_false_iff, decide_eq_false_iff_not] at hnn
      rw [List.drop_eq_getElem_cons hlt,
        parse_max_go_cons src src[pos] (src.drop (pos + 1)) (scan_list (src.take pos)) pos
          ⟨by omega, by omega, by omega⟩,
        ← scan_list_take_succ src pos hlt]
      exact ih (pos + 1) (by omega)

/-- C5 amended (general form): `parse_max` returns the span `[0, offset)`
where `offset = m - 1` is the position of the first character whose
consumption makes a depth counter negative (`m` being the length of the
shortest prefix whose scan has a negative counter). -/
theorem parse_max_first_negative_offset (src : List Char) (m : Nat)
    (hmlen : m ≤ src.length)
    (hneg : has_negative_depth (scan_list (src.take m)) = true)
    (hmin : ∀ i, i < m → has_negative_depth (scan_list (src.take i)) = false) :
    parse_max src = some { start := 0, end_ := m - 1, src := src.take (m - 1) } := by
  have h := parse_max_go_spec src m hmlen hneg hmin m 0 (by omega)
  rw [List.drop_zero] at h
  exact h

set_option maxRecDepth 10000 in
/-- Witness for C5 at the specification's example input: the first
negative-depth prefix has length 17 (the unmatched `)` is at offset 16),
and `parse_max` returns the 16-character span `foo="(", bar="}"`. -/
theorem parse_max_first_negative_offset_witness :
    ((17 : Nat) ≤ ("foo=\"(\", bar=\"\x7d\") bing bong".toList).length ∧
      has_negative_depth
        (scan_list (("foo=\"(\", bar=\"\x7d\") bing bong".toList).take 17)) = true ∧
      (∀ i, i < 17 →
        has_negative_depth
          (scan_list (("foo=\"(\", bar=\"\x7d\") bing bong".toList).take i)) = false)) ∧
      parse_max ("foo=\"(\", bar=\"\x7d\") bing bong".toList) =
        some { start := 0, end_ := 16, src := "foo=\"(\", bar=\"\x7d\"".toList } :=
  ⟨⟨by decide, by decide, by decide⟩, by
    have h := parse_max_first_negative_offset ("foo=\"(\", bar=\"\x7d\") bing bong".toList) 17
      (by decide) (by decide) (by decide)
    rw [h]
    decide⟩

end Brackets
